import Mathlib

set_option autoImplicit false

namespace EmailChecker

/-!
Shallow embedding of the email-checker repository
(src/email/email_validate_script.py and src/email/streamlit_email.py).

Strings are modelled as Lean `String` / `List Char`.  The network world
(DNS resolution and per-attempt SMTP behaviour) is an explicit environment
record, so that `verify_email_smtp` becomes a pure function of the email
string and the environment; alongside the returned `(bool, message)` pair
we record which domains were DNS-queried and which MX hosts were contacted,
in order, so that claims about "no network call" and probing order are
statable.
-/

/-! ### Character classes of the regex `[a-zA-Z0-9._%+-]+@[a-zA-Z0-9.-]+\.[a-zA-Z]{2,}` -/

/-- Characters allowed by the local-part class `[a-zA-Z0-9._%+-]`. -/
def isLocalChar (c : Char) : Bool :=
  (('a' ≤ c) && (c ≤ 'z')) || (('A' ≤ c) && (c ≤ 'Z')) || (('0' ≤ c) && (c ≤ '9')) ||
    c == '.' || c == '_' || c == '%' || c == '+' || c == '-'

/-- Characters allowed by the domain class `[a-zA-Z0-9.-]`. -/
def isDomainChar (c : Char) : Bool :=
  (('a' ≤ c) && (c ≤ 'z')) || (('A' ≤ c) && (c ≤ 'Z')) || (('0' ≤ c) && (c ≤ '9')) ||
    c == '.' || c == '-'

/-- Characters allowed by the top-level-domain class `[a-zA-Z]`. -/
def isTldChar (c : Char) : Bool :=
  (('a' ≤ c) && (c ≤ 'z')) || (('A' ≤ c) && (c ≤ 'Z'))

/-- Split a character list at its LAST dot: `lastDotSplit r = some (d, t)` when
`r = d ++ [dot] ++ t` and `t` is dot-free; `none` when `r` has no dot.  Because the
final `[a-zA-Z]{2,}` group of the regex cannot contain a dot, backtracking of the
greedy `[a-zA-Z0-9.-]+` always places the `\.` of the pattern at the last dot, so
this split characterises the regex match of the domain part exactly. -/
def lastDotSplit : List Char → Option (List Char × List Char)
  | [] => none
  | c :: cs =>
    match lastDotSplit cs with
    | some (d, t) => some (c :: d, t)
    | none => if c = '.' then some ([], cs) else none

/-- Match of `[a-zA-Z0-9.-]+\.[a-zA-Z]{2,}` against the whole of `r`. -/
def domainPart (r : List Char) : Bool :=
  match lastDotSplit r with
  | some (d, t) => !d.isEmpty && d.all isDomainChar && t.all isTldChar && decide (2 ≤ t.length)
  | none => false

/-- Match of the full pattern body `[a-zA-Z0-9._%+-]+@[a-zA-Z0-9.-]+\.[a-zA-Z]{2,}`
against the whole of `s`.  The local part is the maximal run of local characters
(the following character must be the `@`, which is in no class, so the greedy
match is exact). -/
def emailBody (s : List Char) : Bool :=
  match s.dropWhile isLocalChar with
  | c :: r => c == '@' && !(s.takeWhile isLocalChar).isEmpty && domainPart r
  | [] => false

/-- Python `$` (without MULTILINE) matches at the end of the string or just before a
single final newline; anchored matching of `body$` therefore equals full matching of
`body` against the string with one trailing newline, if any, removed. -/
def stripDollarNewline (s : List Char) : List Char :=
  if s.getLast? = some '\n' then s.dropLast else s

/-- Embedding of `is_email_format_valid` (email_validate_script.py lines 7-10):
`bool(re.match(r'^[a-zA-Z0-9._%+-]+@[a-zA-Z0-9.-]+\.[a-zA-Z]{2,}$', email))`.
The streamlit variant (streamlit_email.py lines 16-21) additionally returns false
on `pd.isna(email)`; the batch loop passes `str(row[col])`, which is never NA, so
on the strings the batch model feeds it the two variants coincide. -/
def is_email_format_valid (email : String) : Bool :=
  emailBody (stripDollarNewline email.data)

/-! ### The split on the at sign, `email.split(\x27@\x27)` and tuple unpacking -/

/-- Embedding of Python `s.split(sep)` for the one-character separator `@`:
always returns a non-empty list of the (possibly empty) fragments between
occurrences of `@`. -/
def splitOnAtChar : List Char → List (List Char)
  | [] => [[]]
  | c :: cs =>
    if c = '@' then [] :: splitOnAtChar cs
    else
      match splitOnAtChar cs with
      | p :: ps => (c :: p) :: ps
      | [] => [[c]]

/-- Embedding of `username, domain = email.split(\x27@\x27)` guarded by
`except ValueError`: `some (username, domain)` when the split yields exactly two
fragments (exactly one `@` in the string, empty fragments allowed), `none` when
unpacking would raise `ValueError`. -/
def parseEmail (email : String) : Option (String × String) :=
  match splitOnAtChar email.data with
  | [u, d] => some (String.mk u, String.mk d)
  | _ => none

/-! ### The network environment and `verify_email_smtp` -/

/-- Outcome of one `dns.resolver.resolve(domain, MX)` call: the list of MX
exchange host strings, a `DNSException`, or any other exception. -/
inductive DnsOutcome where
  | ok (records : List String)
  | dnsException (e : String)
  | otherException (e : String)
deriving DecidableEq

/-- Outcome of one per-host SMTP attempt (connect, helo, mail, rcpt): a numeric
reply code to the RCPT command, or one of the caught exception classes
(`SMTPServerDisconnected`, `SMTPConnectError`, `socket.timeout`, `Exception`). -/
inductive HostOutcome where
  | reply (code : Int) (msg : String)
  | serverDisconnected
  | connectError
  | socketTimeout
  | otherException
deriving DecidableEq

/-- Whether a per-host outcome is a reply at all (a completed handshake). -/
def isReply : HostOutcome → Bool
  | .reply _ _ => true
  | _ => false

/-- Whether a per-host outcome is an accepting RCPT reply, code 250. -/
def isAccept : HostOutcome → Bool
  | .reply code _ => code == 250
  | _ => false

/-- The ambient network: what DNS answers for each domain, and what the SMTP
attempt number `i` (0-based position in the MX list being walked) results in. -/
structure NetworkEnv where
  dns : String → DnsOutcome
  smtp : Nat → HostOutcome

/-- Result of one `verify_email_smtp` call: the returned `(bool, message)` pair,
plus instrumentation of the network activity — the domains DNS-resolved and the
MX hosts to which an SMTP connection was attempted, in order. -/
structure ProbeOutcome where
  result : Bool × String
  dnsQueries : List String
  contacted : List String
deriving DecidableEq

/-- The message of email_validate_script.py line 18. -/
def missingAtMsg : String := "Invalid email format (missing @ symbol)"

/-- The aggregate failure message of email_validate_script.py line 65. -/
def inconclusiveMsg : String :=
  "Email validation failed or timed out. This doesn" ++ String.singleton (Char.ofNat 39) ++
    "t necessarily mean the email is invalid - many servers block SMTP verification."

/-- The per-MX-host loop of email_validate_script.py lines 34-65: attempt index `i`
selects the outcome `smtp i`; a 250 reply returns success at once, every other
outcome (non-250 reply or any caught exception) falls through to the next host;
an exhausted list yields the inconclusive failure.  The second component records
the hosts contacted, in order. -/
def tryMxLoop (smtp : Nat → HostOutcome) : List String → Nat → (Bool × String) × List String
  | [], _ => ((false, inconclusiveMsg), [])
  | mx :: rest, i =>
    match smtp i with
    | .reply code _ =>
      if code == 250 then ((true, "Email exists"), [mx])
      else
        let r := tryMxLoop smtp rest (i + 1)
        (r.1, mx :: r.2)
    | _ =>
      let r := tryMxLoop smtp rest (i + 1)
      (r.1, mx :: r.2)

/-- Embedding of `verify_email_smtp` (email_validate_script.py lines 12-65):
split on `@` (ValueError gives the missing-at error), resolve MX records
(`DNSException` and generic exception branches), fail on an empty MX list, and
otherwise walk the MX hosts with `tryMxLoop`. -/
def verify_email_smtp (env : NetworkEnv) (email : String) : ProbeOutcome :=
  match parseEmail email with
  | none => ⟨(false, missingAtMsg), [], []⟩
  | some (_username, domain) =>
    match env.dns domain with
    | .ok mx_records =>
      if mx_records.isEmpty then
        ⟨(false, "No MX records found for domain " ++ domain), [domain], []⟩
      else
        let r := tryMxLoop env.smtp mx_records 0
        ⟨r.1, [domain], r.2⟩
    | .dnsException e => ⟨(false, "DNS error: " ++ e), [domain], []⟩
    | .otherException e => ⟨(false, "Error resolving MX records: " ++ e), [domain], []⟩

/-- Embedding of `check_email` (email_validate_script.py lines 67-74): the format
check first, the SMTP probe only if it passes. -/
def check_email (env : NetworkEnv) (email : String) : ProbeOutcome :=
  if is_email_format_valid email then verify_email_smtp env email
  else ⟨(false, "Invalid email format"), [], []⟩

/-! ### The batch driver (streamlit_email.py lines 124-149) -/

/-- Per-record result fields written by the batch loop.  `username` and `domain`
are `none` exactly when the loop never executed the format-valid branch for the
record (pandas leaves the cell NaN). -/
structure RowResult where
  format_valid : Bool
  reachable : Bool
  validation_message : String
  username : Option String
  domain : Option String
  dnsQueries : List String
  contacted : List String
deriving DecidableEq

/-- One iteration of the batch loop (streamlit_email.py lines 130-143): check
format; if valid, probe reachability and split out username and domain; else
record the fixed message with no network activity. -/
def processRow (env : NetworkEnv) (email : String) : RowResult :=
  if is_email_format_valid email then
    let out := verify_email_smtp env email
    { format_valid := true
      reachable := out.result.1
      validation_message := out.result.2
      username := (parseEmail email).map Prod.fst
      domain := (parseEmail email).map Prod.snd
      dnsQueries := out.dnsQueries
      contacted := out.contacted }
  else
    { format_valid := false
      reachable := false
      validation_message := "Invalid email format"
      username := none
      domain := none
      dnsQueries := []
      contacted := [] }

/-- The batch loop over the selected email column, stringified
(`str(row[email_col])`). -/
def batchValidate (env : NetworkEnv) (emails : List String) : List RowResult :=
  emails.map (processRow env)

/-- Columns the batch run adds to the uploaded table, in creation order.
`format_valid`, `reachable` and `validation_message` are created up front
(streamlit_email.py lines 117-119); `username` and `domain` exist only because
`df.at[i, username]` / `df.at[i, domain]` create a column on first
assignment, which happens only inside the format-valid branch (lines 137-139) —
so they appear iff at least one record is format-valid. -/
def addedColumns (emails : List String) : List String :=
  ["format_valid", "reachable", "validation_message"] ++
    (if emails.any (fun e => is_email_format_valid e) then ["username", "domain"] else [])

/-! ### Lemmas about the per-host loop -/

/-- When no attempt on the walked hosts is accepting, the loop returns the
inconclusive failure after contacting every host in order. -/
theorem tryMxLoop_no_accept (smtp : Nat → HostOutcome) :
    ∀ (mx : List String) (k : Nat),
      (∀ j, j < mx.length → isAccept (smtp (k + j)) = false) →
      tryMxLoop smtp mx k = ((false, inconclusiveMsg), mx) := by
  intro mx
  induction mx with
  | nil => intro k _; rfl
  | cons h t ih =>
    intro k hno
    have h0 : isAccept (smtp k) = false := by
      have := hno 0 (Nat.succ_pos _)
      simpa using this
    have hrest : ∀ j, j < t.length → isAccept (smtp (k + 1 + j)) = false := by
      intro j hj
      have e : k + 1 + j = k + (j + 1) := by omega
      rw [e]
      exact hno (j + 1) (by simpa using Nat.succ_lt_succ hj)
    have ht := ih (k + 1) hrest
    cases hs : smtp k with
    | reply code msg =>
      have hc : (code == 250) = false := by
        rw [hs] at h0
        simpa [isAccept] using h0
      simp [tryMxLoop, hs, hc, ht]
    | serverDisconnected => simp [tryMxLoop, hs, ht]
    | connectError => simp [tryMxLoop, hs, ht]
    | socketTimeout => simp [tryMxLoop, hs, ht]
    | otherException => simp [tryMxLoop, hs, ht]

/-- When position `i` holds the first accepting attempt, the loop returns
success there, having contacted exactly the first `i + 1` hosts. -/
theorem tryMxLoop_first_accept (smtp : Nat → HostOutcome) :
    ∀ (mx : List String) (i k : Nat), i < mx.length →
      isAccept (smtp (k + i)) = true →
      (∀ j, j < i → isAccept (smtp (k + j)) = false) →
      tryMxLoop smtp mx k = ((true, "Email exists"), mx.take (i + 1)) := by
  intro mx
  induction mx with
  | nil => intro i k hi _ _; exact absurd hi (by simp)
  | cons h t ih =>
    intro i k hi hacc hmin
    cases i with
    | zero =>
      cases hs : smtp k with
      | reply code msg =>
        have hc : (code == 250) = true := by
          rw [show k + 0 = k from rfl, hs] at hacc
          simpa [isAccept] using hacc
        simp [tryMxLoop, hs, hc]
      | serverDisconnected => rw [show k + 0 = k from rfl, hs] at hacc; simp [isAccept] at hacc
      | connectError => rw [show k + 0 = k from rfl, hs] at hacc; simp [isAccept] at hacc
      | socketTimeout => rw [show k + 0 = k from rfl, hs] at hacc; simp [isAccept] at hacc
      | otherException => rw [show k + 0 = k from rfl, hs] at hacc; simp [isAccept] at hacc
    | succ n =>
      have h0 : isAccept (smtp k) = false := by
        have := hmin 0 (Nat.succ_pos _)
        simpa using this
      have hacc1 : isAccept (smtp (k + 1 + n)) = true := by
        have e : k + 1 + n = k + (n + 1) := by omega
        rw [e]; exact hacc
      have hmin1 : ∀ j, j < n → isAccept (smtp (k + 1 + j)) = false := by
        intro j hj
        have e : k + 1 + j = k + (j + 1) := by omega
        rw [e]; exact hmin (j + 1) (Nat.succ_lt_succ hj)
      have hn : n < t.length := by simpa using Nat.lt_of_succ_lt_succ hi
      have ht := ih n (k + 1) hn hacc1 hmin1
      cases hs : smtp k with
      | reply code msg =>
        have hc : (code == 250) = false := by
          rw [hs] at h0
          simpa [isAccept] using h0
        simp [tryMxLoop, hs, hc, ht]
      | serverDisconnected => simp [tryMxLoop, hs, ht]
      | connectError => simp [tryMxLoop, hs, ht]
      | socketTimeout => simp [tryMxLoop, hs, ht]
      | otherException => simp [tryMxLoop, hs, ht]

/-- If some walked position is accepting, the loop reports success. -/
theorem tryMxLoop_exists_accept (smtp : Nat → HostOutcome) :
    ∀ (mx : List String) (k : Nat),
      (∃ i, i < mx.length ∧ isAccept (smtp (k + i)) = true) →
      (tryMxLoop smtp mx k).1 = (true, "Email exists") := by
  intro mx
  induction mx with
  | nil =>
    rintro k ⟨i, hi, _⟩
    exact absurd hi (by simp)
  | cons h t ih =>
    rintro k ⟨i, hi, hacc⟩
    by_cases h0 : isAccept (smtp k) = true
    · cases hs : smtp k with
      | reply code msg =>
        have hc : (code == 250) = true := by
          rw [hs] at h0
          simpa [isAccept] using h0
        simp [tryMxLoop, hs, hc]
      | serverDisconnected => rw [hs] at h0; simp [isAccept] at h0
      | connectError => rw [hs] at h0; simp [isAccept] at h0
      | socketTimeout => rw [hs] at h0; simp [isAccept] at h0
      | otherException => rw [hs] at h0; simp [isAccept] at h0
    · have hb : isAccept (smtp k) = false := by
        revert h0
        cases isAccept (smtp k) <;> simp
      cases i with
      | zero => exact absurd hacc h0
      | succ n =>
        have hacc1 : isAccept (smtp (k + 1 + n)) = true := by
          have e : k + 1 + n = k + (n + 1) := by omega
          rw [e]; exact hacc
        have hn : n < t.length := by simpa using Nat.lt_of_succ_lt_succ hi
        have ht := ih (k + 1) ⟨n, hn, hacc1⟩
        cases hs : smtp k with
        | reply code msg =>
          have hc : (code == 250) = false := by
            rw [hs] at hb
            simpa [isAccept] using hb
          simpa [tryMxLoop, hs, hc] using ht
        | serverDisconnected => simpa [tryMxLoop, hs] using ht
        | connectError => simpa [tryMxLoop, hs] using ht
        | socketTimeout => simpa [tryMxLoop, hs] using ht
        | otherException => simpa [tryMxLoop, hs] using ht

/-- The message returned by the loop is either the success message or the
inconclusive failure message. -/
theorem tryMxLoop_msg (smtp : Nat → HostOutcome) :
    ∀ (mx : List String) (k : Nat),
      (tryMxLoop smtp mx k).1.2 = "Email exists" ∨
        (tryMxLoop smtp mx k).1.2 = inconclusiveMsg := by
  intro mx
  induction mx with
  | nil => intro k; right; rfl
  | cons h t ih =>
    intro k
    cases hs : smtp k with
    | reply code msg =>
      by_cases hc : (code == 250) = true
      · left; simp [tryMxLoop, hs, hc]
      · have hc0 : (code == 250) = false := by
          revert hc
          cases code == 250 <;> simp
        simpa [tryMxLoop, hs, hc0] using ih (k + 1)
    | serverDisconnected => simpa [tryMxLoop, hs] using ih (k + 1)
    | connectError => simpa [tryMxLoop, hs] using ih (k + 1)
    | socketTimeout => simpa [tryMxLoop, hs] using ih (k + 1)
    | otherException => simpa [tryMxLoop, hs] using ih (k + 1)

/-! ### Unfolding lemmas for `verify_email_smtp` -/

/-- When the split on `@` fails, the probe fails at once with the missing-at
message and no DNS query or connection. -/
theorem verify_parse_none (env : NetworkEnv) (email : String)
    (h : parseEmail email = none) :
    verify_email_smtp env email = ⟨(false, missingAtMsg), [], []⟩ := by
  unfold verify_email_smtp
  rw [h]

/-- When the split succeeds and DNS yields a non-empty MX list, the probe is the
per-host loop started at attempt 0, after the one DNS query. -/
theorem verify_unfold_ok (env : NetworkEnv) (email u d : String) (mx : List String)
    (hp : parseEmail email = some (u, d)) (hd : env.dns d = DnsOutcome.ok mx)
    (hmx : mx.isEmpty = false) :
    verify_email_smtp env email =
      ⟨(tryMxLoop env.smtp mx 0).1, [d], (tryMxLoop env.smtp mx 0).2⟩ := by
  unfold verify_email_smtp
  rw [hp]
  simp [hd, hmx]

/-- When the split succeeds and DNS yields an empty MX list, the probe fails
with the no-MX-records message, after the one DNS query and no connection. -/
theorem verify_unfold_noMx (env : NetworkEnv) (email u d : String)
    (hp : parseEmail email = some (u, d)) (hd : env.dns d = DnsOutcome.ok []) :
    verify_email_smtp env email =
      ⟨(false, "No MX records found for domain " ++ d), [d], []⟩ := by
  unfold verify_email_smtp
  rw [hp]
  simp [hd]

/-- When the split succeeds and DNS raises a `DNSException`, the probe fails
with the DNS-error message, after the one DNS query and no connection. -/
theorem verify_unfold_dnsExc (env : NetworkEnv) (email u d e : String)
    (hp : parseEmail email = some (u, d)) (hd : env.dns d = DnsOutcome.dnsException e) :
    verify_email_smtp env email = ⟨(false, "DNS error: " ++ e), [d], []⟩ := by
  unfold verify_email_smtp
  rw [hp]
  simp [hd]

/-- When the split succeeds and DNS raises any other exception, the probe fails
with the resolution-error message, after the one DNS query and no connection. -/
theorem verify_unfold_otherExc (env : NetworkEnv) (email u d e : String)
    (hp : parseEmail email = some (u, d)) (hd : env.dns d = DnsOutcome.otherException e) :
    verify_email_smtp env email =
      ⟨(false, "Error resolving MX records: " ++ e), [d], []⟩ := by
  unfold verify_email_smtp
  rw [hp]
  simp [hd]

/-! ### String disequalities between the returned messages -/

/-- Data of an appended string. -/
theorem string_data_append (a b : String) : (a ++ b).data = a.data ++ b.data := by
  cases a; cases b; rfl

/-- Two strings whose first characters differ are different. -/
theorem string_ne_of_head_ne {a b : String} (h : a.data.head? ≠ b.data.head?) : a ≠ b :=
  fun e => h (by rw [e])

/-- A string starting with a prefix whose first character differs from the first
character of `t` stays different from `t` whatever is appended. -/
theorem append_ne_of_head_ne (p e t : String) (c : Char) (rest : List Char)
    (hp : p.data = c :: rest) (ht : t.data.head? ≠ some c) : (p ++ e) ≠ t := by
  apply string_ne_of_head_ne
  rw [string_data_append, hp]
  simpa using fun x => ht x.symm

/-- The probe never returns the message of the batch format failure. -/
theorem verify_msg_ne_invalidFormat (env : NetworkEnv) (email : String) :
    (verify_email_smtp env email).result.2 ≠ "Invalid email format" := by
  cases hp : parseEmail email with
  | none =>
    rw [verify_parse_none env email hp]
    decide
  | some ud =>
    obtain ⟨u, d⟩ := ud
    cases hd : env.dns d with
    | ok mx =>
      cases mx with
      | nil =>
        rw [verify_unfold_noMx env email u d hp hd]
        exact append_ne_of_head_ne _ d _ 'N' _ rfl (by decide)
      | cons a t =>
        rw [verify_unfold_ok env email u d (a :: t) hp hd rfl]
        show (tryMxLoop env.smtp (a :: t) 0).1.2 ≠ "Invalid email format"
        rcases tryMxLoop_msg env.smtp (a :: t) 0 with h | h <;> rw [h] <;> decide
    | dnsException e =>
      rw [verify_unfold_dnsExc env email u d e hp hd]
      exact append_ne_of_head_ne _ e _ 'D' _ rfl (by decide)
    | otherException e =>
      rw [verify_unfold_otherExc env email u d e hp hd]
      exact append_ne_of_head_ne _ e _ 'E' _ rfl (by decide)

/-- After a successful split on `@`, the probe never returns the missing-at
message: the ValueError branch is not taken. -/
theorem verify_msg_ne_missingAt (env : NetworkEnv) (email u d : String)
    (hp : parseEmail email = some (u, d)) :
    (verify_email_smtp env email).result.2 ≠ missingAtMsg := by
  cases hd : env.dns d with
  | ok mx =>
    cases mx with
    | nil =>
      rw [verify_unfold_noMx env email u d hp hd]
      exact append_ne_of_head_ne _ d _ 'N' _ rfl (by decide)
    | cons a t =>
      rw [verify_unfold_ok env email u d (a :: t) hp hd rfl]
      show (tryMxLoop env.smtp (a :: t) 0).1.2 ≠ missingAtMsg
      rcases tryMxLoop_msg env.smtp (a :: t) 0 with h | h <;> rw [h] <;> decide
  | dnsException e =>
    rw [verify_unfold_dnsExc env email u d e hp hd]
    exact append_ne_of_head_ne _ e _ 'D' _ rfl (by decide)
  | otherException e =>
    rw [verify_unfold_otherExc env email u d e hp hd]
    exact append_ne_of_head_ne _ e _ 'E' _ rfl (by decide)

/-- After a successful split on `@`, exactly the domain is DNS-queried. -/
theorem verify_dnsQueries_of_parse (env : NetworkEnv) (email u d : String)
    (hp : parseEmail email = some (u, d)) :
    (verify_email_smtp env email).dnsQueries = [d] := by
  cases hd : env.dns d with
  | ok mx =>
    cases mx with
    | nil => rw [verify_unfold_noMx env email u d hp hd]
    | cons a t => rw [verify_unfold_ok env email u d (a :: t) hp hd rfl]
  | dnsException e => rw [verify_unfold_dnsExc env email u d e hp hd]
  | otherException e => rw [verify_unfold_otherExc env email u d e hp hd]

/-! ### Structure of strings accepted by the format validator -/

/-- A successful last-dot split is a decomposition of the list. -/
theorem lastDotSplit_eq : ∀ {r d t : List Char},
    lastDotSplit r = some (d, t) → r = d ++ '.' :: t := by
  intro r
  induction r with
  | nil => intro d t h; simp [lastDotSplit] at h
  | cons c cs ih =>
    intro d t h
    rw [lastDotSplit] at h
    cases hcs : lastDotSplit cs with
    | some dt =>
      obtain ⟨d1, t1⟩ := dt
      rw [hcs] at h
      simp at h
      obtain ⟨hd, ht⟩ := h
      subst hd
      subst ht
      simpa using ih hcs
    | none =>
      rw [hcs] at h
      by_cases hc : c = '.'
      · rw [if_pos hc] at h
        simp at h
        obtain ⟨hd, ht⟩ := h
        subst hd
        subst ht
        simp [hc]
      · rw [if_neg hc] at h
        simp at h

/-- A list passing the domain-part check decomposes as required and contains
no `@`. -/
theorem domainPart_structure {r : List Char} (h : domainPart r = true) :
    r ≠ [] ∧ '@' ∉ r := by
  unfold domainPart at h
  cases hs : lastDotSplit r with
  | none => rw [hs] at h; simp at h
  | some dt =>
    obtain ⟨d, t⟩ := dt
    rw [hs] at h
    simp at h
    obtain ⟨⟨⟨hd_ne, hd⟩, ht⟩, hlen⟩ := h
    have hr := lastDotSplit_eq hs
    subst hr
    refine ⟨by simp, ?_⟩
    intro hm
    rcases List.mem_append.mp hm with hm | hm
    · have := hd '@' hm
      exact absurd this (by decide)
    · rcases List.mem_cons.mp hm with hm | hm
      · exact absurd hm (by decide)
      · have := ht '@' hm
        exact absurd this (by decide)

/-- A list accepted by the pattern body splits as local part, `@`, domain part,
with a non-empty all-local-character local part and an at-free non-empty rest. -/
theorem emailBody_decomp {s : List Char} (h : emailBody s = true) :
    ∃ l r, s = l ++ '@' :: r ∧ l ≠ [] ∧ (∀ c ∈ l, isLocalChar c = true) ∧
      '@' ∉ r ∧ r ≠ [] := by
  unfold emailBody at h
  cases hs : s.dropWhile isLocalChar with
  | nil => rw [hs] at h; simp at h
  | cons c r =>
    rw [hs] at h
    simp only [Bool.and_eq_true, beq_iff_eq, Bool.not_eq_true'] at h
    obtain ⟨⟨hc, htw⟩, hdp⟩ := h
    subst hc
    obtain ⟨hrne, hrat⟩ := domainPart_structure hdp
    refine ⟨s.takeWhile isLocalChar, r, ?_, ?_, ?_, hrat, hrne⟩
    · rw [← hs]
      exact (List.takeWhile_append_dropWhile ..).symm
    · intro e
      rw [e] at htw
      simp at htw
    · intro a ha
      exact List.mem_takeWhile_imp ha

/-- Restoring the character dropped by the dollar-newline strip. -/
theorem stripDollarNewline_cases (s : List Char) :
    stripDollarNewline s = s ∨ s = stripDollarNewline s ++ ['\n'] := by
  unfold stripDollarNewline
  by_cases h : s.getLast? = some '\n'
  · rw [if_pos h]
    right
    exact (List.dropLast_append_getLast? '\n' h).symm
  · rw [if_neg h]
    left
    rfl

/-- A format-valid email string splits as local part, `@`, rest, with both
sides non-empty and at-free. -/
theorem valid_structure {email : String} (h : is_email_format_valid email = true) :
    ∃ l r, email.data = l ++ '@' :: r ∧ l ≠ [] ∧ '@' ∉ l ∧ '@' ∉ r ∧ r ≠ [] := by
  unfold is_email_format_valid at h
  obtain ⟨l, r, he, hl, hloc, hrat, hrne⟩ := emailBody_decomp h
  have hlat : '@' ∉ l := by
    intro hm
    have := hloc '@' hm
    exact absurd this (by decide)
  rcases stripDollarNewline_cases email.data with hstrip | hstrip
  · exact ⟨l, r, by rw [← hstrip, he], hl, hlat, hrat, hrne⟩
  · refine ⟨l, r ++ ['\n'], ?_, hl, hlat, ?_, by simp⟩
    · rw [hstrip, he]
      simp
    · intro hm
      rcases List.mem_append.mp hm with hm | hm
      · exact hrat hm
      · rcases List.mem_cons.mp hm with hm | hm
        · exact absurd hm (by decide)
        · simp at hm

/-! ### Behaviour of the split on the at sign -/

/-- Splitting an at-free list yields the single fragment. -/
theorem splitOnAtChar_no_at : ∀ {l : List Char}, '@' ∉ l → splitOnAtChar l = [l] := by
  intro l
  induction l with
  | nil => intro _; rfl
  | cons c cs ih =>
    intro h
    have hc : ¬ c = '@' := fun e => h (e ▸ List.mem_cons_self c cs)
    have hcs : '@' ∉ cs := fun m => h (List.mem_cons_of_mem _ m)
    simp [splitOnAtChar, hc, ih hcs]

/-- Splitting a list with exactly one `@` yields the two surrounding
fragments. -/
theorem splitOnAtChar_middle : ∀ {a b : List Char}, '@' ∉ a → '@' ∉ b →
    splitOnAtChar (a ++ '@' :: b) = [a, b] := by
  intro a b ha hb
  induction a with
  | nil => simp [splitOnAtChar, splitOnAtChar_no_at hb]
  | cons c cs ih =>
    have hc : ¬ c = '@' := fun e => ha (e ▸ List.mem_cons_self c cs)
    have hcs : '@' ∉ cs := fun m => ha (List.mem_cons_of_mem _ m)
    simp [splitOnAtChar, hc, ih hcs]

/-- A format-valid email string parses into a non-empty username and a
non-empty domain, and holds exactly one `@`. -/
theorem parseEmail_of_valid {email : String} (h : is_email_format_valid email = true) :
    ∃ u d : String, parseEmail email = some (u, d) ∧ u ≠ "" ∧ d ≠ "" ∧
      email.data.count '@' = 1 := by
  obtain ⟨l, r, he, hl, hlat, hrat, hrne⟩ := valid_structure h
  refine ⟨String.mk l, String.mk r, ?_, ?_, ?_, ?_⟩
  · unfold parseEmail
    rw [he, splitOnAtChar_middle hlat hrat]
  · intro e
    apply hl
    simpa using congrArg String.data e
  · intro e
    apply hrne
    simpa using congrArg String.data e
  · rw [he]
    rw [List.count_append, List.count_cons_self]
    rw [List.count_eq_zero.mpr hlat, List.count_eq_zero.mpr hrat]

/-! ### The claims -/

/-- C1: for every address whose MX host list is non-empty, if some attempt
replies 250 to the recipient declaration, `verify_email_smtp` returns success
`(true, "Email exists")` at the first such host; the contacted hosts are
exactly the ones up to and including that host, so no subsequent MX host is
contacted. -/
theorem c1_accepts_at_first_accepting_host (env : NetworkEnv) (email u d : String)
    (mx : List String) (i : Nat)
    (hp : parseEmail email = some (u, d))
    (hd : env.dns d = DnsOutcome.ok mx)
    (hi : i < mx.length)
    (hacc : isAccept (env.smtp i) = true)
    (hfirst : ∀ j, j < i → isAccept (env.smtp j) = false) :
    verify_email_smtp env email = ⟨(true, "Email exists"), [d], mx.take (i + 1)⟩ := by
  have hmx : mx.isEmpty = false := by
    cases mx with
    | nil => simp at hi
    | cons a t => rfl
  have hloop := tryMxLoop_first_accept env.smtp mx i 0 hi
    (by simpa using hacc)
    (by intro j hj; simpa using hfirst j hj)
  rw [verify_unfold_ok env email u d mx hp hd hmx, hloop]

/-- Witness for C1: a two-host MX list whose first host accepts; the probe
succeeds having contacted only the first host. -/
theorem c1_witness :
    verify_email_smtp
      ⟨fun _ => DnsOutcome.ok ["mx1", "mx2"],
        fun n => if n = 0 then HostOutcome.reply 250 "ok" else HostOutcome.serverDisconnected⟩
      "a@b.co" = ⟨(true, "Email exists"), ["b.co"], ["mx1"]⟩ := by
  have h := c1_accepts_at_first_accepting_host
    ⟨fun _ => DnsOutcome.ok ["mx1", "mx2"],
      fun n => if n = 0 then HostOutcome.reply 250 "ok" else HostOutcome.serverDisconnected⟩
    "a@b.co" "a" "b.co" ["mx1", "mx2"] 0 (by decide) rfl (by decide) (by decide)
    (fun j hj => absurd hj (Nat.not_lt_zero j))
  simpa using h

/-- C2: when DNS resolves and every per-host attempt fails (connection error,
disconnect, timeout, other exception, or a non-250 reply), the probe contacts
all hosts in the supplied order and returns the inconclusive caveat failure.
No per-host error escapes: the loop is a total function on every
`HostOutcome`, mirroring the blanket except clauses of the source. -/
theorem c2_exhausts_all_hosts_inconclusive (env : NetworkEnv) (email u d : String)
    (mx : List String)
    (hp : parseEmail email = some (u, d))
    (hd : env.dns d = DnsOutcome.ok mx)
    (hne : mx ≠ [])
    (hno : ∀ j, j < mx.length → isAccept (env.smtp j) = false) :
    verify_email_smtp env email = ⟨(false, inconclusiveMsg), [d], mx⟩ := by
  have hmx : mx.isEmpty = false := by
    cases mx with
    | nil => exact absurd rfl hne
    | cons a t => rfl
  have hloop := tryMxLoop_no_accept env.smtp mx 0 (by intro j hj; simpa using hno j hj)
  rw [verify_unfold_ok env email u d mx hp hd hmx, hloop]

/-- Witness for C2: both hosts time out; the probe returns the inconclusive
failure having contacted both hosts in order. -/
theorem c2_witness :
    verify_email_smtp
      ⟨fun _ => DnsOutcome.ok ["h1", "h2"], fun _ => HostOutcome.socketTimeout⟩
      "a@b.co" = ⟨(false, inconclusiveMsg), ["b.co"], ["h1", "h2"]⟩ :=
  c2_exhausts_all_hosts_inconclusive
    ⟨fun _ => DnsOutcome.ok ["h1", "h2"], fun _ => HostOutcome.socketTimeout⟩
    "a@b.co" "a" "b.co" ["h1", "h2"] (by decide) rfl (by decide) (fun j hj => rfl)

/-- C3 counterexample: the first MX host yields a handshake response (a 550
reply), yet the probe does not return there: it goes on to contact the second
host and succeeds there.  This refutes the claim that the prober returns on the
first host that yields any handshake response. -/
theorem c3_counterexample :
    isReply
        ((⟨fun _ => DnsOutcome.ok ["h1", "h2"],
            fun n => if n = 0 then HostOutcome.reply 550 "denied" else HostOutcome.reply 250 "ok"⟩ :
          NetworkEnv).smtp 0) = true ∧
      verify_email_smtp
        ⟨fun _ => DnsOutcome.ok ["h1", "h2"],
          fun n => if n = 0 then HostOutcome.reply 550 "denied" else HostOutcome.reply 250 "ok"⟩
        "a@b.co" = ⟨(true, "Email exists"), ["b.co"], ["h1", "h2"]⟩ := by
  constructor
  · rfl
  · decide

/-- C3 amended: the prober returns early only on the first host whose reply
code is 250 (success iff some attempt within the list accepts); when no
attempt accepts — non-250 replies included — it reports failure only after
contacting the whole list. -/
theorem c3_amended_returns_on_accept (env : NetworkEnv) (email u d : String)
    (mx : List String)
    (hp : parseEmail email = some (u, d))
    (hd : env.dns d = DnsOutcome.ok mx)
    (hne : mx ≠ []) :
    ((verify_email_smtp env email).result.1 = true ↔
        ∃ i, i < mx.length ∧ isAccept (env.smtp i) = true) ∧
      ((∀ j, j < mx.length → isAccept (env.smtp j) = false) →
        (verify_email_smtp env email).contacted = mx) := by
  have hmx : mx.isEmpty = false := by
    cases mx with
    | nil => exact absurd rfl hne
    | cons a t => rfl
  have hv := verify_unfold_ok env email u d mx hp hd hmx
  constructor
  · constructor
    · intro hres
      by_contra hnex
      have hall : ∀ j, j < mx.length → isAccept (env.smtp j) = false := by
        intro j hj
        by_contra hx
        refine hnex ⟨j, hj, ?_⟩
        revert hx
        cases isAccept (env.smtp j) <;> simp
      have hloop := tryMxLoop_no_accept env.smtp mx 0 (by intro j hj; simpa using hall j hj)
      rw [hv, hloop] at hres
      simp at hres
    · rintro ⟨i, hi, hacc⟩
      have hloop := tryMxLoop_exists_accept env.smtp mx 0 ⟨i, hi, by simpa using hacc⟩
      rw [hv]
      show (tryMxLoop env.smtp mx 0).1.1 = true
      rw [hloop]
  · intro hall
    have hloop := tryMxLoop_no_accept env.smtp mx 0 (by intro j hj; simpa using hall j hj)
    rw [hv]
    show (tryMxLoop env.smtp mx 0).2 = mx
    rw [hloop]

/-- Witness for C3 amended: a host list whose second attempt accepts. -/
theorem c3_amended_witness :
    ((verify_email_smtp
          ⟨fun _ => DnsOutcome.ok ["h1", "h2"],
            fun n => if n = 0 then HostOutcome.reply 550 "denied" else HostOutcome.reply 250 "ok"⟩
          "a@b.co").result.1 = true ↔
        ∃ i, i < (["h1", "h2"] : List String).length ∧
          isAccept
            ((⟨fun _ => DnsOutcome.ok ["h1", "h2"],
                fun n => if n = 0 then HostOutcome.reply 550 "denied" else
                  HostOutcome.reply 250 "ok"⟩ : NetworkEnv).smtp i) = true) ∧
      ((∀ j, j < (["h1", "h2"] : List String).length →
          isAccept
            ((⟨fun _ => DnsOutcome.ok ["h1", "h2"],
                fun n => if n = 0 then HostOutcome.reply 550 "denied" else
                  HostOutcome.reply 250 "ok"⟩ : NetworkEnv).smtp j) = false) →
        (verify_email_smtp
          ⟨fun _ => DnsOutcome.ok ["h1", "h2"],
            fun n => if n = 0 then HostOutcome.reply 550 "denied" else HostOutcome.reply 250 "ok"⟩
          "a@b.co").contacted = ["h1", "h2"]) :=
  c3_amended_returns_on_accept
    ⟨fun _ => DnsOutcome.ok ["h1", "h2"],
      fun n => if n = 0 then HostOutcome.reply 550 "denied" else HostOutcome.reply 250 "ok"⟩
    "a@b.co" "a" "b.co" ["h1", "h2"] (by decide) rfl (by decide)

/-- C4 counterexample: the string made of the letter a followed by `@` splits
into exactly two parts of which the second is EMPTY, so the claim says the
probe must fail with the missing-at error and attempt no DNS resolution; the
code instead proceeds to resolve the empty domain (one DNS query is recorded)
and reports the DNS error. -/
theorem c4_counterexample :
    splitOnAtChar "a@".data = [['a'], []] ∧
      verify_email_smtp
        ⟨fun _ => DnsOutcome.dnsException "probe", fun _ => HostOutcome.socketTimeout⟩
        "a@" = ⟨(false, "DNS error: probe"), [""], []⟩ := by
  constructor
  · decide
  · decide

/-- C4 amended: `verify_email_smtp` fails immediately with the missing-at
format error, with no DNS query and no connection, if and only if splitting on
`@` does not yield exactly two parts (empty parts are accepted by the split
and proceed to DNS resolution). -/
theorem c4_amended_missing_at (env : NetworkEnv) (email : String) :
    verify_email_smtp env email = ⟨(false, missingAtMsg), [], []⟩ ↔
      parseEmail email = none := by
  constructor
  · intro h
    cases hp : parseEmail email with
    | none => rfl
    | some ud =>
      obtain ⟨u, d⟩ := ud
      have hq := verify_dnsQueries_of_parse env email u d hp
      rw [h] at hq
      simp at hq
  · intro h
    exact verify_parse_none env email h

/-- C5: over any uploaded dataset, the records whose result row has
`reachable = false` and message "Invalid email format" are counted exactly by
the format-invalid records, and every format-invalid record is processed with
no DNS query and no connection. -/
theorem c5_batch_invalid_rows (env : NetworkEnv) (emails : List String) :
    (batchValidate env emails).countP
        (fun row => !row.reachable && (row.validation_message == "Invalid email format")) =
      emails.countP (fun e => !is_email_format_valid e) ∧
    (∀ e ∈ emails, is_email_format_valid e = false →
      processRow env e = ⟨false, false, "Invalid email format", none, none, [], []⟩) := by
  constructor
  · unfold batchValidate
    rw [List.countP_map]
    apply List.countP_congr
    intro e _
    cases hv : is_email_format_valid e with
    | false => simp [Function.comp, processRow, hv]
    | true =>
      have hm := verify_msg_ne_invalidFormat env e
      have hb : ((verify_email_smtp env e).result.2 == "Invalid email format") = false :=
        beq_eq_false_iff_ne.mpr hm
      simp [Function.comp, processRow, hv, hb]
  · intro e _ hv
    simp [processRow, hv]

/-- Witness for C5: a format-invalid record produces the fixed failure row with
no network activity. -/
theorem c5_witness :
    processRow ⟨fun _ => DnsOutcome.ok [], fun _ => HostOutcome.socketTimeout⟩ "not-an-email" =
      ⟨false, false, "Invalid email format", none, none, [], []⟩ :=
  (c5_batch_invalid_rows ⟨fun _ => DnsOutcome.ok [], fun _ => HostOutcome.socketTimeout⟩
      ["not-an-email"]).2 "not-an-email" (by decide) (by decide)

/-- C6: every string without an `@` is rejected by the format validator. -/
theorem c6_no_at_rejected (s : String) (h : '@' ∉ s.data) :
    is_email_format_valid s = false := by
  cases hv : is_email_format_valid s with
  | false => rfl
  | true =>
    exfalso
    obtain ⟨l, r, he, _, _, _, _⟩ := valid_structure hv
    exact h (he ▸ List.mem_append.mpr (Or.inr (List.mem_cons_self _ _)))

/-- Witness for C6: a concrete at-free string is rejected. -/
theorem c6_witness : is_email_format_valid "not-an-email" = false :=
  c6_no_at_rejected "not-an-email" (by decide)

/-- C7: when the domain resolves to an empty MX record set, the probe fails
with the no-MX-records message, performs the one DNS query, and contacts no
mail server at all. -/
theorem c7_empty_mx_no_connection (env : NetworkEnv) (email u d : String)
    (hp : parseEmail email = some (u, d))
    (hd : env.dns d = DnsOutcome.ok []) :
    verify_email_smtp env email =
      ⟨(false, "No MX records found for domain " ++ d), [d], []⟩ :=
  verify_unfold_noMx env email u d hp hd

/-- Witness for C7: a concrete domain with zero MX records. -/
theorem c7_witness :
    verify_email_smtp ⟨fun _ => DnsOutcome.ok [], fun _ => HostOutcome.socketTimeout⟩
      "a@b.co" = ⟨(false, "No MX records found for domain b.co"), ["b.co"], []⟩ := by
  have h := c7_empty_mx_no_connection
    ⟨fun _ => DnsOutcome.ok [], fun _ => HostOutcome.socketTimeout⟩
    "a@b.co" "a" "b.co" (by decide) rfl
  rw [h]
  decide

/-- C8 counterexample: a run in which no record is format-valid adds only the
three unconditional columns; the `username` and `domain` columns are never
created, refuting the claim that all five added columns are present in every
run. -/
theorem c8_counterexample :
    addedColumns ["not-an-email"] = ["format_valid", "reachable", "validation_message"] ∧
      "username" ∉ addedColumns ["not-an-email"] ∧
      "domain" ∉ addedColumns ["not-an-email"] := by
  refine ⟨?_, ?_, ?_⟩ <;> decide

/-- C8 amended: the augmented table always contains `format_valid`,
`reachable` and `validation_message`; it contains `username` and `domain` if
and only if at least one record is format-valid. -/
theorem c8_amended_columns (emails : List String) :
    "format_valid" ∈ addedColumns emails ∧
      "reachable" ∈ addedColumns emails ∧
      "validation_message" ∈ addedColumns emails ∧
      (("username" ∈ addedColumns emails ∧ "domain" ∈ addedColumns emails) ↔
        emails.any (fun e => is_email_format_valid e) = true) := by
  unfold addedColumns
  cases h : emails.any (fun e => is_email_format_valid e) with
  | false => decide
  | true => decide

/-- C9: every string accepted by the format validator contains exactly one `@`
and splits on it into two non-empty parts; consequently `check_email` (which
probes only after the format check passes) can never return the missing-at
error message. -/
theorem c9_missing_at_branch_unreachable (env : NetworkEnv) (email : String)
    (h : is_email_format_valid email = true) :
    email.data.count '@' = 1 ∧
      (∃ u d : String, parseEmail email = some (u, d) ∧ u ≠ "" ∧ d ≠ "") ∧
      (check_email env email).result.2 ≠ missingAtMsg := by
  obtain ⟨u, d, hp, hu, hd, hcount⟩ := parseEmail_of_valid h
  refine ⟨hcount, ⟨u, d, hp, hu, hd⟩, ?_⟩
  have hc : check_email env email = verify_email_smtp env email := by
    unfold check_email
    rw [h]
    rfl
  rw [hc]
  exact verify_msg_ne_missingAt env email u d hp

/-- Witness for C9: the accepted address user@example.com has one `@`, two
non-empty parts, and its checked message is not the missing-at error. -/
theorem c9_witness :
    ("user@example.com" : String).data.count '@' = 1 ∧
      (∃ u d : String, parseEmail "user@example.com" = some (u, d) ∧ u ≠ "" ∧ d ≠ "") ∧
      (check_email ⟨fun _ => DnsOutcome.ok [], fun _ => HostOutcome.socketTimeout⟩
          "user@example.com").result.2 ≠ missingAtMsg :=
  c9_missing_at_branch_unreachable
    ⟨fun _ => DnsOutcome.ok [], fun _ => HostOutcome.socketTimeout⟩
    "user@example.com" (by decide)

/-- C10: a well-formed address followed by a single trailing newline is
accepted by the format validator, although its last character is a newline and
so it is not of the plain localpart-at-domain-dot-tld shape: the pattern is
applied with re.match and the dollar anchor also matches just before a final
newline. -/
theorem c10_trailing_newline_accepted :
    is_email_format_valid "user@example.com\n" = true ∧
      ("user@example.com\n" : String).data.getLast? = some '\n' := by
  constructor
  · decide
  · decide

end EmailChecker
